import Mathlib

/-!
Verification development for the tuxedo replication engine.

The definitions below are a shallow embedding of the Rust sources:

* `src/replication/processor.rs` — batch enumeration, adaptive batching;
* `src/replication/task.rs` — the read/transform/write loop of a task;
* `src/replication/types.rs` and `src/database/mongodb/destination.rs`
  — target clearing;
* `src/replication/manager_builder.rs` and `src/error.rs` — builder
  `build()` control flow and the error enum;
* `src/database/index.rs`, `src/database/mongodb/conversions.rs`,
  `src/database/mongodb/source.rs` — the index model and its
  translations.

Machine integers (`u64`, `usize`, `i64`) are modelled as `Nat`/`Int`;
none of the modelled computations can overflow at the sizes the claims
quantify over.  Rust's `saturating_sub` on unsigned integers coincides
with `Nat` subtraction.  Fallible Rust code (`TuxedoResult`) is modelled
with explicit outcome types; a Rust panic (`expect`, division by zero)
is a dedicated constructor, never an error value.
-/

namespace Tuxedo

/-- Rust `usize::div_ceil`: ceiling division on natural numbers. -/
def divCeil (a b : Nat) : Nat := (a + b - 1) / b

/-- `HashMap::insert` / `bson::Document::insert` on an association list:
if the key is already present its value is replaced in place (the entry
keeps its position), otherwise the pair is appended. -/
def assocInsert {β : Type} (m : List (String × β)) (k : String) (v : β) :
    List (String × β) :=
  if m.any (fun p => p.1 == k) then
    m.map (fun p => if p.1 == k then (k, v) else p)
  else
    m ++ [(k, v)]

/-! ## Replication strategy (`src/replication/types.rs`) -/

/-- `ReplicationStrategy` from `src/replication/types.rs`. -/
inductive ReplicationStrategy
  | clone
  | mask
deriving DecidableEq

/-! ## Find options (`mongodb::options::FindOptions`, the fields the
engine touches in `src/replication/processor.rs`) -/

/-- The slice of `FindOptions` that `ModelProcessor::run` writes: sort
document (modelled as field/direction pairs), skip, limit and cursor
batch size.  All other `FindOptions` fields are cloned unchanged from
the defaults and are not modelled. -/
structure FindOptionsM where
  sort : Option (List (String × Int)) := none
  skip : Option Nat := none
  limit : Option Int := none
  batchSize : Option Nat := none
deriving DecidableEq

/-- `doc! { "_id": 1 }`, the stable default sort imposed by the
processors for skip/limit pagination. -/
def primaryKeySort : List (String × Int) := [("_id", 1)]

/-! ## Processor batch enumeration (`ModelProcessor::run`,
`src/replication/processor.rs` lines 194–245; `ReplicatorProcessor::run`
is literally the same loop) -/

/-- One iteration of the dispatch loop: `skip = batch_index * batch_size`,
`remaining = total.saturating_sub(skip)`, `limit = batch_size.min(remaining)`.
`Nat` subtraction is saturating, exactly like `usize::saturating_sub`. -/
def batchDescriptor (batchSize total i : Nat) : Nat × Nat :=
  (i * batchSize, min batchSize (total - i * batchSize))

/-- The pagination descriptors `(skip, limit)` of the tasks the
processor dispatches: `batch_count = total.div_ceil(batch_size)`
iterations, stopping early at the `if limit == 0 { break; }` guard
(modelled by `takeWhile`). -/
def processorBatches (total batchSize : Nat) : List (Nat × Nat) :=
  ((List.range (divCeil total batchSize)).map
      (batchDescriptor batchSize total)).takeWhile (fun p => p.2 != 0)

/-- The read options attached to one dispatched task
(`src/replication/processor.rs` lines 214–221): the default read options
with the sort defaulted to `{_id: 1}` when absent, and skip / limit /
cursor batch size overwritten from the batch descriptor. -/
def buildBatchReadOptions (defaults : FindOptionsM) (cursorBatchSize : Nat)
    (d : Nat × Nat) : FindOptionsM :=
  { sort := some (match defaults.sort with
      | none => primaryKeySort
      | some s => s)
    skip := some d.1
    limit := some (d.2 : Int)
    batchSize := some cursorBatchSize }

/-- The read options of every task a processor dispatches, in dispatch
order. -/
def processorTaskReadOptions (total batchSize cursorBatchSize : Nat)
    (defaults : FindOptionsM) : List FindOptionsM :=
  (processorBatches total batchSize).map
    (buildBatchReadOptions defaults cursorBatchSize)

/-! ## Adaptive batching (`Processor::setup_adaptive_batching` and
`calculate_optimal_target_bytes`, `src/replication/processor.rs`) -/

/-- `to_mb` from `src/replication/processor.rs`: `size * 1024 * 1024`. -/
def to_mb (size : Nat) : Nat := size * 1024 * 1024

/-- `calculate_optimal_target_bytes`: the piecewise target-bytes
function over the average document size. -/
def calculate_optimal_target_bytes (averageDocumentSize : Nat) : Nat :=
  if averageDocumentSize < 1024 then to_mb 75
  else if averageDocumentSize < 10 * 1024 then to_mb 50
  else if averageDocumentSize < 100 * 1024 then to_mb 30
  else if averageDocumentSize < 500 * 1024 then to_mb 15
  else to_mb 5

/-- `BatchingOptions` from `src/replication/processor.rs`. -/
structure BatchingOptions where
  batchSize : Nat
  cursorBatchSize : Nat
deriving DecidableEq

/-- `Processor::aligned_batch_cursor_size`:
`(batch_size as f64 * 1.2).ceil() as u64`.  Modelled as the exact
ceiling `⌈6·b/5⌉ = (6·b + 4) / 5`; the IEEE-754 double computation of
the source agrees with this exact value for every `b` below `2^51`
(the rounding error of `b * 1.2_f64` is far smaller than the distance
of `6·b/5` from the next integer), which covers every batch size the
engine derives without a user override. -/
def aligned_batch_cursor_size (batchSize : Nat) : Nat :=
  (6 * batchSize + 4) / 5

/-- Outcome of `Processor::setup_adaptive_batching` once the source has
reported the average document size.  The Rust function has no error
branch of its own after that call: the only non-`Ok` behaviour is the
`u64` division-by-zero panic, modelled as `panicDivByZero`. -/
inductive AdaptiveBatchingOutcome
  | ok (options : BatchingOptions)
  | panicDivByZero
deriving DecidableEq

/-- `Processor::setup_adaptive_batching`
(`src/replication/processor.rs` lines 58–78), taking the average
document size the source reported: the target bytes default to
`calculate_optimal_target_bytes`, `optimal_document_count =
target_bytes / average_document_size` (an unguarded `u64` division that
panics when the average is `0`), and `batch_size =
optimal_document_count.max(1)`. -/
def setup_adaptive_batching (averageDocumentSize : Nat)
    (targetBytes : Option Nat) : AdaptiveBatchingOutcome :=
  if averageDocumentSize = 0 then .panicDivByZero
  else
    let tb := targetBytes.getD (calculate_optimal_target_bytes averageDocumentSize)
    let optimalDocumentCount := tb / averageDocumentSize
    let batchSize := max optimalDocumentCount 1
    .ok { batchSize, cursorBatchSize := aligned_batch_cursor_size batchSize }

/-! ## Task read/transform/write loop (`ModelTask::run`,
`src/replication/task.rs` lines 209–328) -/

/-- `WRITE_BATCH_SIZE` from `src/replication/task.rs`. -/
def WRITE_BATCH_SIZE : Nat := 1000

/-- What the strategy does to one record inside the loop: under `Mask`
the record's `mask()` transform runs once, under `Clone` the record is
untouched. -/
def applyStrategy {T : Type} (strategy : ReplicationStrategy)
    (maskFn : T → T) (record : T) : T :=
  match strategy with
  | .mask => maskFn record
  | .clone => record

/-- The mutable loop state of `ModelTask::run`: the batches already
passed to `dbs.write` (in call order) and the current `write_batch`
buffer. -/
structure TaskWriteState (T : Type) where
  writes : List (List T)
  buf : List T

/-- One iteration of the cursor loop of `ModelTask::run`: a record that
fails `deserialize_current` is skipped; otherwise it is masked when the
strategy requires it, pushed onto `write_batch`, and the batch is
flushed to `dbs.write` once `write_batch.len() >= WRITE_BATCH_SIZE`. -/
def modelTaskStep {T : Type} (strategy : ReplicationStrategy)
    (maskFn : T → T) (s : TaskWriteState T) (item : Except String T) :
    TaskWriteState T :=
  match item with
  | .error _ => s
  | .ok record =>
    let record := applyStrategy strategy maskFn record
    let buf := s.buf ++ [record]
    if WRITE_BATCH_SIZE ≤ buf.length then
      { writes := s.writes ++ [buf], buf := [] }
    else
      { writes := s.writes, buf }

/-- The sequence of record batches `ModelTask::run` passes to
`dbs.write`, given the cursor's deserialization results in order (a
cursor `advance` error simply ends the list).  After the loop the
remaining non-empty `write_batch` is written as the final batch. -/
def modelTaskWrites {T : Type} (strategy : ReplicationStrategy)
    (maskFn : T → T) (cursor : List (Except String T)) : List (List T) :=
  let s := cursor.foldl (modelTaskStep strategy maskFn) ⟨[], []⟩
  if s.buf.isEmpty then s.writes else s.writes ++ [s.buf]

/-- The records of the batch that deserialized successfully, in cursor
order — the records the task "reads". -/
def cursorRecords {T : Type} (cursor : List (Except String T)) : List T :=
  cursor.filterMap Except.toOption

/-! ## Target clearing (`MongodbDestination::clear_database`,
`src/database/mongodb/destination.rs` lines 90–129;
`DatabasePair::clear_target_collections` in
`src/replication/types.rs` lines 123–158 has the identical skip/drop
logic) -/

/-- Rust `str::starts_with`, evaluated on the character sequence. -/
def strStartsWith (s pre : String) : Bool :=
  pre.data.isPrefixOf s.data

/-- Rust `str::ends_with`, evaluated on the character sequence. -/
def strEndsWith (s suf : String) : Bool :=
  suf.data.isSuffixOf s.data

/-- The system-collection guard of `clear_database`: skip when the name
starts with `system.`, `admin.` or `config.`.  (No suffix check is
performed by the source.) -/
def shouldSkipSystemCollection (name : String) : Bool :=
  strStartsWith name "system." || strStartsWith name "admin."
    || strStartsWith name "config."

/-- The collections `clear_database` drops, given the processor
allow-list `entityNames` and the collections existing on the target:
every existing collection that is not skipped by the system guard and
appears in the allow-list. -/
def clearDatabaseDropped (entityNames targetCollections : List String) :
    List String :=
  targetCollections.filter
    (fun c => !shouldSkipSystemCollection c && entityNames.contains c)

/-! ## Error enum and `ReplicationManagerBuilder::build`
(`src/error.rs`, `src/replication/manager_builder.rs`) -/

/-- `TuxedoError` from `src/error.rs`, payloads flattened to the error
message.  Note there is no `ConnectionError` variant; driver errors use
the `Database` variant. -/
inductive TuxedoErrorM
  | StdIoError (msg : String)
  | TaskError (msg : String)
  | ConfigError (msg : String)
  | Database (msg : String)
  | SemaphoreError (msg : String)
  | Serialization (msg : String)
  | FutureJoin (msg : String)
  | WorkerSend (msg : String)
  | Generic (msg : String)
  | Other (msg : String)
deriving DecidableEq

/-- `ReplicationConfig` from `src/replication/manager.rs` (the
`write_options` bag is not modelled; it carries no data any claim
needs). -/
structure ReplicationConfigM where
  threadCount : Nat
  batchSize : Nat
  writeBatchSize : Nat
  strategy : ReplicationStrategy
  adaptiveBatching : Bool
  readOptions : FindOptionsM
  copyViews : Bool
deriving DecidableEq

/-- `ReplicationConfig::default()`: `thread_count` defaults to
`num_cpus::get()`, passed in as `numCpus`. -/
def defaultReplicationConfig (numCpus : Nat) : ReplicationConfigM :=
  { threadCount := numCpus
    batchSize := 1000
    writeBatchSize := 1000
    strategy := .mask
    adaptiveBatching := false
    readOptions := {}
    copyViews := false }

/-- `ReplicationManagerBuilder` state
(`src/replication/manager_builder.rs`).  Note the builder keeps its own
`thread_count` field, distinct from `config.thread_count`. -/
structure ReplicationManagerBuilderM where
  sourceUri : Option String
  targetUri : Option String
  sourceDb : Option String
  targetDb : Option String
  threadCount : Nat
  config : ReplicationConfigM
deriving DecidableEq

/-- `ReplicationManagerBuilder::new()`. -/
def builderNew (numCpus : Nat) : ReplicationManagerBuilderM :=
  { sourceUri := none
    targetUri := none
    sourceDb := none
    targetDb := none
    threadCount := numCpus
    config := defaultReplicationConfig numCpus }

/-- Builder setter `source_uri`. -/
def setSourceUri (b : ReplicationManagerBuilderM) (uri : String) :
    ReplicationManagerBuilderM :=
  { b with sourceUri := some uri }

/-- Builder setter `target_uri`. -/
def setTargetUri (b : ReplicationManagerBuilderM) (uri : String) :
    ReplicationManagerBuilderM :=
  { b with targetUri := some uri }

/-- Builder setter `thread_count`: it stores into the builder's own
`thread_count` field and leaves `config.thread_count` untouched,
exactly as the source does. -/
def setThreadCount (b : ReplicationManagerBuilderM) (count : Nat) :
    ReplicationManagerBuilderM :=
  { b with threadCount := count }

/-- The data of the built `ReplicationManager` a claim inspects: the
capacity the bounded `mpsc::channel` was created with, and the config
snapshot. -/
structure ManagerModel where
  channelCapacity : Nat
  config : ReplicationConfigM
deriving DecidableEq

/-- Environment of one `build()` call: what the fallible external steps
would answer.  `sourceDbNameInUri` is the database name
`parse_db_name_from_uri` extracts from the (present, well-formed) URI;
`sourceClientOptionsError` is `ClientOptions::parse`'s error message
when it fails; the two `ListCollectionsOk` flags are the liveness
probes (`list_collection_names`), and `clearTargetOk` is the outcome of
`clear_target_collections`. -/
structure BuildEnv where
  sourceDbNameInUri : Option String
  targetDbNameInUri : Option String
  sourceClientOptionsError : Option String
  targetClientOptionsError : Option String
  sourceListCollectionsOk : Bool
  targetListCollectionsOk : Bool
  clearTargetOk : Bool
deriving DecidableEq

/-- Outcome of `ReplicationManagerBuilder::build`: a manager, a returned
`TuxedoError`, or a process abort through `expect` (a panic is not a
return value). -/
inductive BuildOutcome
  | ok (manager : ManagerModel)
  | err (e : TuxedoErrorM)
  | panics (msg : String)
deriving DecidableEq

/-- `ReplicationManagerBuilder::build`
(`src/replication/manager_builder.rs` lines 173–246) in source order:
missing URIs return `ConfigError`; `ClientOptions::parse` failures
return the driver error through `From<mongodb::error::Error>` (the
`Database` variant); a URI with no database name and no configured name
returns `ConfigError`; the two liveness probes and the target clearing
are wrapped in `expect` and hence panic — the probe panic message is the
inner `expect` inside `DatabasePair::test_database_connection`.  On
success the dispatch channel is created with
`mpsc::channel(self.config.thread_count)`. -/
def build (b : ReplicationManagerBuilderM) (env : BuildEnv) : BuildOutcome :=
  match b.sourceUri with
  | none => .err (.ConfigError "No source_uri provided.")
  | some _ =>
    match b.targetUri with
    | none => .err (.ConfigError "No target_uri provided.")
    | some _ =>
      match env.sourceClientOptionsError with
      | some e => .err (.Database e)
      | none =>
        match env.targetClientOptionsError with
        | some e => .err (.Database e)
        | none =>
          match env.sourceDbNameInUri.orElse (fun _ => b.sourceDb) with
          | none => .err (.ConfigError "Could not parse database name from URI and no database name provided.")
          | some _ =>
            match env.targetDbNameInUri.orElse (fun _ => b.targetDb) with
            | none => .err (.ConfigError "Could not parse database name from URI and no database name provided.")
            | some _ =>
              if !env.sourceListCollectionsOk then
                .panics "Failed to list connections for DB"
              else if !env.targetListCollectionsOk then
                .panics "Failed to list connections for DB"
              else if !env.clearTargetOk then
                .panics "Expected to successfully drop target database collections before replication"
              else
                .ok { channelCapacity := b.config.threadCount, config := b.config }

/-- Whether a build outcome is a returned error value. -/
def isErrOutcome : BuildOutcome → Bool
  | .err _ => true
  | _ => false

/-- The channel capacity of a successful build. -/
def builtChannelCapacity : BuildOutcome → Option Nat
  | .ok m => some m.channelCapacity
  | _ => none

/-- A concrete builder with both URIs configured, on a 2-CPU host. -/
def builderBothUris : ReplicationManagerBuilderM :=
  setTargetUri
    (setSourceUri (builderNew 2) "mongodb://source:27017/app")
    "mongodb://target:27017/app"

/-- A build environment in which every external step succeeds. -/
def allOkEnv : BuildEnv :=
  { sourceDbNameInUri := some "app"
    targetDbNameInUri := some "app"
    sourceClientOptionsError := none
    targetClientOptionsError := none
    sourceListCollectionsOk := true
    targetListCollectionsOk := true
    clearTargetOk := true }

/-- A build environment whose source liveness probe fails. -/
def probeFailEnv : BuildEnv :=
  { allOkEnv with sourceListCollectionsOk := false }

/-- A build environment in which clearing the target collections
fails. -/
def clearFailEnv : BuildEnv :=
  { allOkEnv with clearTargetOk := false }

/-! ## Index model (`src/database/index.rs`) and its MongoDB
translations (`src/database/mongodb/conversions.rs`,
`src/database/mongodb/source.rs`) -/

/-- The BSON values index translation looks at: 32/64-bit integers and
strings.  Other BSON shapes only ever hit the `_ => Ascending`
fallbacks. -/
inductive BsonValue
  | int32 (i : Int)
  | int64 (i : Int)
  | str (s : String)
deriving DecidableEq

/-- `Bson::as_str`. -/
def BsonValue.asStr : BsonValue → Option String
  | .str s => some s
  | _ => none

/-- `IndexDirection` from `src/database/index.rs`. -/
inductive IndexDirection
  | Ascending
  | Descending
deriving DecidableEq

/-- `IndexType` from `src/database/index.rs`. -/
inductive IndexType
  | Unique
  | Text
  | Geo2DSphere
  | Geo2D
  | Hashed
  | Compound
  | Partial
  | Standard
deriving DecidableEq

/-- `IndexField` from `src/database/index.rs`. -/
structure IndexField where
  name : String
  direction : IndexDirection
deriving DecidableEq

/-- The `serde_json::Value` shapes the index options maps actually
hold. -/
inductive JsonValue
  | bool (b : Bool)
  | str (s : String)
  | num (n : Int)
deriving DecidableEq

/-- `serde_json::Value::as_bool`. -/
def JsonValue.asBool : JsonValue → Option Bool
  | .bool b => some b
  | _ => none

/-- `serde_json::Value::as_str`. -/
def JsonValue.asStr : JsonValue → Option String
  | .str s => some s
  | _ => none

/-- `IndexConfig` from `src/database/index.rs`.  The `options`
`HashMap` is modelled as an association list in insertion order; all
code paths only build maps with pairwise-distinct keys. -/
structure IndexConfig where
  name : String
  fields : List IndexField
  index_type : IndexType
  options : List (String × JsonValue)
deriving DecidableEq

/-- The fields of `mongodb::options::IndexOptions` the translations
read or write. -/
structure IndexOptionsM where
  name : Option String := none
  unique : Option Bool := none
  sparse : Option Bool := none
  default_language : Option String := none
  language_override : Option String := none
  text_index_version : Option Int := none
  sphere_2d_index_version : Option Int := none
deriving DecidableEq

/-- `mongodb::IndexModel`: the ordered keys document plus optional
options. -/
structure IndexModelM where
  keys : List (String × BsonValue)
  options : Option IndexOptionsM
deriving DecidableEq

/-- `SourceIndexes` from `src/database/index.rs`. -/
structure SourceIndexesM where
  entityName : String
  indexes : List IndexConfig
deriving DecidableEq

/-- `From<&IndexDirection> for Bson` (`src/database/index.rs`). -/
def bsonOfDirection : IndexDirection → BsonValue
  | .Ascending => .int32 1
  | .Descending => .int32 (-1)

/-- The direction match of `From<IndexModel> for IndexConfig`
(`src/database/mongodb/conversions.rs` lines 30–36): `Int32(1)` or
`Int64(1)` is ascending, `Int32(-1)` or `Int64(-1)` descending,
anything else falls back to ascending. -/
def directionOfBson (v : BsonValue) : IndexDirection :=
  match v with
  | .int32 i => if i = 1 then .Ascending else if i = -1 then .Descending else .Ascending
  | .int64 i => if i = 1 then .Ascending else if i = -1 then .Descending else .Ascending
  | _ => .Ascending

/-- `From<IndexModel> for IndexConfig`
(`src/database/mongodb/conversions.rs` lines 25–106): fields from the
keys document; sequential kind detection (`unique` flag, then the
sentinel key values `"text"`, `"2dsphere"`, `"2d"`, `"hashed"`); the
options map gains `unique`, the text language options and `sparse`;
the name falls back to `"unnamed_index"`. -/
def indexModelToConfig (model : IndexModelM) : IndexConfig :=
  let fields := model.keys.map (fun p => ⟨p.1, directionOfBson p.2⟩)
  match model.options with
  | none =>
    { name := "unnamed_index", fields, index_type := .Standard, options := [] }
  | some opts =>
    let state0 : IndexType × List (String × JsonValue) := (.Standard, [])
    let state1 :=
      if opts.unique = some true then
        (IndexType.Unique, assocInsert state0.2 "unique" (JsonValue.bool true))
      else state0
    let state2 :=
      if model.keys.any (fun p => p.2.asStr == some "text") then
        let o1 := match opts.default_language with
          | some lang => assocInsert state1.2 "default_language" (JsonValue.str lang)
          | none => state1.2
        let o2 := match opts.language_override with
          | some lo => assocInsert o1 "language_override" (JsonValue.str lo)
          | none => o1
        (IndexType.Text, o2)
      else state1
    let type3 :=
      if model.keys.any (fun p => p.2.asStr == some "2dsphere") then IndexType.Geo2DSphere
      else state2.1
    let type4 :=
      if model.keys.any (fun p => p.2.asStr == some "2d") then IndexType.Geo2D
      else type3
    let type5 :=
      if model.keys.any (fun p => p.2.asStr == some "hashed") then IndexType.Hashed
      else type4
    let options3 := match opts.sparse with
      | some b => assocInsert state2.2 "sparse" (JsonValue.bool b)
      | none => state2.2
    { name := opts.name.getD "unnamed_index"
      fields
      index_type := type5
      options := options3 }

/-- `From<&IndexConfig> for IndexModel`
(`src/database/mongodb/conversions.rs` lines 112–189): the keys
document is built from the fields with their direction sentinels, then
— for the special kinds — every field's value is re-inserted as the
kind's sentinel string; options carry the name, the `unique` flag, the
text language options and `sparse`. -/
def configToIndexModel (config : IndexConfig) : IndexModelM :=
  let keys0 := config.fields.foldl
    (fun d f => assocInsert d f.name (bsonOfDirection f.direction)) []
  let opts0 : IndexOptionsM := { name := some config.name }
  let state1 : List (String × BsonValue) × IndexOptionsM :=
    match config.index_type with
    | .Unique => (keys0, { opts0 with unique := some true })
    | .Text =>
      let k := config.fields.foldl
        (fun d f => assocInsert d f.name (BsonValue.str "text")) keys0
      let o1 := match (config.options.lookup "default_language").bind JsonValue.asStr with
        | some lang => { opts0 with default_language := some lang }
        | none => opts0
      let o2 := match (config.options.lookup "language_override").bind JsonValue.asStr with
        | some lo => { o1 with language_override := some lo }
        | none => o1
      (k, o2)
    | .Geo2DSphere =>
      (config.fields.foldl
        (fun d f => assocInsert d f.name (BsonValue.str "2dsphere")) keys0, opts0)
    | .Geo2D =>
      (config.fields.foldl
        (fun d f => assocInsert d f.name (BsonValue.str "2d")) keys0, opts0)
    | .Hashed =>
      (config.fields.foldl
        (fun d f => assocInsert d f.name (BsonValue.str "hashed")) keys0, opts0)
    | _ => (keys0, opts0)
  let opts2 := match (config.options.lookup "sparse").bind JsonValue.asBool with
    | some b => { state1.2 with sparse := some b }
    | none => state1.2
  { keys := state1.1, options := some opts2 }

/-- `Display for IndexDirection` (`src/database/index.rs`): `asc` /
`desc`. -/
def dirString : IndexDirection → String
  | .Ascending => "asc"
  | .Descending => "desc"

/-- `MongodbSource::generate_default_index_name`
(`src/database/mongodb/source.rs` lines 42–52):
`idx_<collection>_<field1>_<dir1>_…`. -/
def generate_default_index_name (collectionName : String)
    (fields : List IndexField) : String :=
  let fieldNames := String.intercalate "_"
    (fields.map (fun f => f.name ++ "_" ++ dirString f.direction))
  "idx_" ++ collectionName ++ "_" ++ fieldNames

/-- The direction match of `MongodbSource::list_indexes`
(`src/database/mongodb/source.rs` lines 91–95): only `Int32` sentinels
are recognised, everything else falls back to ascending. -/
def sourceDirectionOfBson (v : BsonValue) : IndexDirection :=
  match v with
  | .int32 i => if i = 1 then .Ascending else if i = -1 then .Descending else .Ascending
  | _ => .Ascending

/-- The per-index conversion inside `MongodbSource::list_indexes`
(`src/database/mongodb/source.rs` lines 86–138): fields with the
`Int32`-only direction parse; kind from `unique.is_some()`, else
`text_index_version`, else `sphere_2d_index_version`; `sparse`
preserved; the name falls back to `generate_default_index_name`. -/
def convertSourceIndex (entityName : String) (index : IndexModelM) :
    IndexConfig :=
  let fields := index.keys.map (fun p => ⟨p.1, sourceDirectionOfBson p.2⟩)
  let state : IndexType × List (String × JsonValue) :=
    match index.options with
    | none => (.Standard, [])
    | some opts =>
      let base : IndexType × List (String × JsonValue) :=
        if opts.unique.isSome then
          (.Unique, assocInsert [] "unique" (JsonValue.bool true))
        else if opts.text_index_version.isSome then (.Text, [])
        else if opts.sphere_2d_index_version.isSome then (.Geo2DSphere, [])
        else (.Standard, [])
      match opts.sparse with
      | some b => (base.1, assocInsert base.2 "sparse" (JsonValue.bool b))
      | none => base
  let name := (index.options.bind IndexOptionsM.name).getD
    (generate_default_index_name entityName fields)
  { name, fields, index_type := state.1, options := state.2 }

/-- `MongodbSource::list_indexes`
(`src/database/mongodb/source.rs` lines 73–147): drop the `_id`
primary-key index, convert the rest. -/
def list_indexes (entityName : String) (sourceIndexes : List IndexModelM) :
    SourceIndexesM :=
  { entityName
    indexes := (sourceIndexes.filter
        (fun m => (m.keys.lookup "_id").isNone)).map
      (convertSourceIndex entityName) }

/-- The canonical options map for a round-trip-safe `IndexConfig`:
exactly the keys `From<IndexModel> for IndexConfig` can produce for the
given kind, in the order it produces them. -/
def canonicalOptions (t : IndexType) (sp : Option Bool)
    (dl lo : Option String) : List (String × JsonValue) :=
  (if t = .Unique then [("unique", JsonValue.bool true)] else [])
  ++ (if t = .Text then
        (match dl with
          | some l => [("default_language", JsonValue.str l)]
          | none => [])
        ++ (match lo with
          | some l => [("language_override", JsonValue.str l)]
          | none => [])
      else [])
  ++ (match sp with
    | some b => [("sparse", JsonValue.bool b)]
    | none => [])

/-- Whether a kind replaces the direction sentinels by a sentinel
string when emitted natively. -/
def sentinelKind : IndexType → Bool
  | .Text => true
  | .Geo2DSphere => true
  | .Geo2D => true
  | .Hashed => true
  | _ => false

/-- A concrete native index on `email` ascending whose options carry no
name. -/
def mUnnamed : IndexModelM :=
  { keys := [("email", BsonValue.int32 1)], options := some {} }

/-- A concrete `Compound` index config. -/
def cCompound : IndexConfig :=
  { name := "i"
    fields := [⟨"a", .Ascending⟩]
    index_type := .Compound
    options := [] }

/-- A concrete `Text` index config with a descending field. -/
def cTextDesc : IndexConfig :=
  { name := "t"
    fields := [⟨"d", .Descending⟩]
    index_type := .Text
    options := [] }

/-- A concrete `Unique` index config with mixed directions and the
canonical `unique`/`sparse` options. -/
def cUniqueRT : IndexConfig :=
  { name := "idx_users_email_asc"
    fields := [⟨"email", .Ascending⟩, ⟨"age", .Descending⟩]
    index_type := .Unique
    options := [("unique", JsonValue.bool true), ("sparse", JsonValue.bool false)] }

/-! ## Helper lemmas -/

theorem mul_lt_of_lt_divCeil {N B i : Nat} (hB : 0 < B)
    (hi : i < divCeil N B) : i * B < N := by
  have h : (i + 1) * B ≤ N + B - 1 := (Nat.le_div_iff_mul_le hB).mp hi
  rw [Nat.add_mul, Nat.one_mul] at h
  have hB1 : 1 ≤ B := hB
  generalize i * B = a at h ⊢
  omega

theorem processorBatches_eq_map {N B : Nat} (hB : 0 < B) :
    processorBatches N B
      = (List.range (divCeil N B)).map (batchDescriptor B N) := by
  apply List.takeWhile_eq_self_iff.mpr
  intro p hp
  obtain ⟨i, hi, rfl⟩ := List.mem_map.mp hp
  rw [List.mem_range] at hi
  have h1 : i * B < N := mul_lt_of_lt_divCeil hB hi
  have h2 : 0 < N - i * B := Nat.sub_pos_of_lt h1
  simp only [batchDescriptor, bne_iff_ne, ne_eq]
  intro hzero
  rw [Nat.min_eq_zero_iff] at hzero
  omega

theorem cursorRecords_cons_ok {T : Type} (r : T)
    (rest : List (Except String T)) :
    cursorRecords (Except.ok r :: rest) = r :: cursorRecords rest := by
  simp [cursorRecords, Except.toOption]

theorem cursorRecords_cons_error {T : Type} (e : String)
    (rest : List (Except String T)) :
    cursorRecords (Except.error e :: rest) = cursorRecords rest := by
  simp [cursorRecords, Except.toOption]

theorem task_fold_invariant {T : Type} (strategy : ReplicationStrategy)
    (maskFn : T → T) (cursor : List (Except String T)) :
    ∀ s : TaskWriteState T,
      ((cursor.foldl (modelTaskStep strategy maskFn) s).writes).flatten
          ++ (cursor.foldl (modelTaskStep strategy maskFn) s).buf
        = s.writes.flatten ++ s.buf
            ++ (cursorRecords cursor).map (applyStrategy strategy maskFn) := by
  induction cursor with
  | nil => intro s; simp [cursorRecords]
  | cons item rest ih =>
    intro s
    rw [List.foldl_cons, ih]
    cases item with
    | error e =>
      rw [cursorRecords_cons_error]
      rfl
    | ok r =>
      rw [cursorRecords_cons_ok]
      simp only [modelTaskStep]
      by_cases hb :
          WRITE_BATCH_SIZE ≤ (s.buf ++ [applyStrategy strategy maskFn r]).length
      · rw [if_pos hb]
        simp [List.flatten_append, List.append_assoc]
      · rw [if_neg hb]
        simp [List.append_assoc]

theorem modelTaskWrites_flatten {T : Type} (strategy : ReplicationStrategy)
    (maskFn : T → T) (cursor : List (Except String T)) :
    (modelTaskWrites strategy maskFn cursor).flatten
      = (cursorRecords cursor).map (applyStrategy strategy maskFn) := by
  unfold modelTaskWrites
  have h := task_fold_invariant strategy maskFn cursor ⟨[], []⟩
  simp only [List.flatten_nil, List.nil_append] at h
  by_cases he : (cursor.foldl (modelTaskStep strategy maskFn) ⟨[], []⟩).buf.isEmpty
  · rw [if_pos he]
    rw [List.isEmpty_iff] at he
    rw [he, List.append_nil] at h
    exact h
  · rw [if_neg he]
    rw [List.flatten_append]
    simpa using h

/-! ## Claim theorems -/

/-- C1: for every total `N > 0` and batch size `B > 0`, the processor
dispatches exactly `⌈N/B⌉` tasks, the `i`-th with pagination descriptor
`(i·B, min(B, N − i·B))`; every dispatched limit is positive, and the
half-open intervals `[start, start+limit)` cover each point of `[0, N)`
exactly once and no point outside it. -/
theorem processor_pagination_exact_cover (N B : Nat) (hN : 0 < N) (hB : 0 < B) :
    (processorBatches N B).length = divCeil N B ∧
    (∀ i, i < divCeil N B →
      (processorBatches N B)[i]? = some (i * B, min B (N - i * B))) ∧
    (∀ p ∈ processorBatches N B, 0 < p.2) ∧
    (∀ k : Nat,
      (processorBatches N B).countP (fun p => decide (p.1 ≤ k ∧ k < p.1 + p.2))
        = if k < N then 1 else 0) := by
  refine ⟨?_, ?_, ?_, ?_⟩
  · rw [processorBatches_eq_map hB, List.length_map, List.length_range]
  · intro i hi
    rw [processorBatches_eq_map hB, List.getElem?_map, List.getElem?_range hi]
    rfl
  · intro p hp
    rw [processorBatches_eq_map hB] at hp
    obtain ⟨i, hi, rfl⟩ := List.mem_map.mp hp
    rw [List.mem_range] at hi
    have h1 : i * B < N := mul_lt_of_lt_divCeil hB hi
    exact lt_min hB (Nat.sub_pos_of_lt h1)
  · intro k
    rw [processorBatches_eq_map hB, List.countP_map]
    by_cases hk : k < N
    · rw [if_pos hk]
      have key : ∀ i ∈ List.range (divCeil N B),
          ((fun p : Nat × Nat => decide (p.1 ≤ k ∧ k < p.1 + p.2))
              ∘ batchDescriptor B N) i = true ↔ (i == k / B) = true := by
        intro i hmem
        rw [List.mem_range] at hmem
        have hiN : i * B < N := mul_lt_of_lt_divCeil hB hmem
        simp only [Function.comp, batchDescriptor, decide_eq_true_eq, beq_iff_eq]
        constructor
        · rintro ⟨hle, hlt⟩
          have hi2 : k < i * B + B :=
            lt_of_lt_of_le hlt (Nat.add_le_add_left (Nat.min_le_left _ _) _)
          have hdiv : k / B = i :=
            Nat.div_eq_of_lt_le hle
              (by rw [Nat.add_mul, Nat.one_mul]; exact hi2)
          exact hdiv.symm
        · intro hiq
          subst hiq
          refine ⟨Nat.div_mul_le_self k B, ?_⟩
          rcases Nat.le_total B (N - k / B * B) with hc | hc
          · rw [Nat.min_eq_left hc]
            have e := Nat.div_add_mod k B
            have hm : k % B < B := Nat.mod_lt k hB
            calc k = B * (k / B) + k % B := e.symm
              _ < B * (k / B) + B := Nat.add_lt_add_left hm _
              _ = k / B * B + B := by rw [Nat.mul_comm]
          · rw [Nat.min_eq_right hc]
            have hqk : k / B * B ≤ k := Nat.div_mul_le_self k B
            have hqN : k / B * B ≤ N := le_trans hqk (le_of_lt hk)
            rw [Nat.add_sub_cancel' hqN]
            exact hk
      rw [List.countP_congr key]
      have hq : k / B < divCeil N B := by
        have h1 : k / B * B ≤ k := Nat.div_mul_le_self k B
        have h2 : (k / B + 1) * B ≤ N + B - 1 := by
          rw [Nat.add_mul, Nat.one_mul]
          generalize k / B * B = a at h1 ⊢
          omega
        exact (Nat.le_div_iff_mul_le hB).mpr h2
      have : (List.range (divCeil N B)).countP (fun i => i == k / B)
          = (List.range (divCeil N B)).count (k / B) := rfl
      rw [this]
      exact List.count_eq_one_of_mem (List.nodup_range _) (List.mem_range.mpr hq)
    · rw [if_neg hk]
      apply List.countP_eq_zero.mpr
      intro i hmem
      rw [List.mem_range] at hmem
      have hiN : i * B < N := mul_lt_of_lt_divCeil hB hmem
      simp only [Function.comp, batchDescriptor, decide_eq_true_eq, not_and, not_lt]
      intro _
      have h2 : i * B + min B (N - i * B) ≤ i * B + (N - i * B) :=
        Nat.add_le_add_left (Nat.min_le_right _ _) _
      rw [Nat.add_sub_cancel' (le_of_lt hiN)] at h2
      omega

/-- C1 witness: a concrete instantiation of the pagination theorem. -/
theorem processor_pagination_exact_cover_witness :
    0 < 5 ∧ 0 < 2 ∧ (processorBatches 5 2).length = divCeil 5 2 :=
  ⟨by decide, by decide,
    (processor_pagination_exact_cover 5 2 (by decide) (by decide)).1⟩

/-- C6: every task built under skip/limit pagination carries read
options whose sort is the user sort when supplied and `{_id: 1}`
otherwise, whose skip is the batch's start, whose limit is the batch's
computed limit, and whose cursor batch size is the effective one. -/
theorem processor_read_options_stable_sort (N B C : Nat)
    (defaults : FindOptionsM) (hB : 0 < B) :
    ∀ o ∈ processorTaskReadOptions N B C defaults,
      (defaults.sort = none → o.sort = some primaryKeySort) ∧
      (∀ s, defaults.sort = some s → o.sort = some s) ∧
      (∃ i, i < divCeil N B ∧ o.skip = some (i * B) ∧
        o.limit = some ((min B (N - i * B) : Nat) : Int) ∧
        o.batchSize = some C) := by
  intro o ho
  unfold processorTaskReadOptions at ho
  obtain ⟨p, hp, rfl⟩ := List.mem_map.mp ho
  rw [processorBatches_eq_map hB] at hp
  obtain ⟨i, hi, rfl⟩ := List.mem_map.mp hp
  rw [List.mem_range] at hi
  refine ⟨?_, ?_, i, hi, ?_, ?_, ?_⟩
  · intro h
    simp [buildBatchReadOptions, h]
  · intro s h
    simp [buildBatchReadOptions, h]
  · rfl
  · rfl
  · rfl

/-- C6 witness: a concrete instantiation on `N = 5`, `B = 2`,
cursor batch size `7` and default read options without a sort. -/
theorem processor_read_options_stable_sort_witness :
    (0 < 2 ∧
      ({ sort := some primaryKeySort, skip := some 0, limit := some 2,
          batchSize := some 7 } : FindOptionsM)
        ∈ processorTaskReadOptions 5 2 7 {}) ∧
    ({ sort := some primaryKeySort, skip := some 0, limit := some 2,
        batchSize := some 7 } : FindOptionsM).sort = some primaryKeySort :=
  ⟨⟨by decide, by decide⟩,
    (processor_read_options_stable_sort 5 2 7 {} (by decide)
      { sort := some primaryKeySort, skip := some 0, limit := some 2,
        batchSize := some 7 } (by decide)).1 rfl⟩

/-- The source's `(batch_size as f64 * 1.2).ceil()` equals the exact
rational ceiling of `1.2 · b`. -/
theorem aligned_cursor_eq_ceil (b : Nat) :
    (aligned_batch_cursor_size b : ℤ) = ⌈(b : ℚ) * (12 / 10)⌉ := by
  have e := Nat.div_add_mod (6 * b + 4) 5
  have hm : (6 * b + 4) % 5 < 5 := Nat.mod_lt _ (by norm_num)
  have h5 : 5 * ((6 * b + 4) / 5) ≤ 6 * b + 4 := by omega
  have h6 : 6 * b ≤ 5 * ((6 * b + 4) / 5) := by omega
  generalize hq : (6 * b + 4) / 5 = q at h5 h6
  have hab : aligned_batch_cursor_size b = q := by
    unfold aligned_batch_cursor_size
    exact hq
  rw [hab]
  symm
  rw [Int.ceil_eq_iff]
  have hq5 : ((5 * q : ℕ) : ℚ) ≤ ((6 * b + 4 : ℕ) : ℚ) := by exact_mod_cast h5
  have hq6 : ((6 * b : ℕ) : ℚ) ≤ ((5 * q : ℕ) : ℚ) := by exact_mod_cast h6
  push_cast at hq5 hq6
  constructor
  · rw [show ((12 : ℚ) / 10) = 6 / 5 by norm_num,
      show (b : ℚ) * (6 / 5) = (6 * (b : ℚ)) / 5 by ring,
      lt_div_iff₀ (by norm_num : (0 : ℚ) < 5)]
    push_cast
    linarith
  · rw [show ((12 : ℚ) / 10) = 6 / 5 by norm_num,
      show (b : ℚ) * (6 / 5) = (6 * (b : ℚ)) / 5 by ring,
      div_le_iff₀ (by norm_num : (0 : ℚ) < 5)]
    push_cast
    linarith

/-- C7: with adaptive batching and no target-bytes override, the target
bytes follow the documented piecewise function of the average record
size `s`, the batch size is `max(1, target_bytes / s)` with integer
division, the cursor batch size is `⌈batch_size · 1.2⌉`, and `s = 800`
yields batch size `98304` and cursor batch size `117965`. -/
theorem adaptive_batching_piecewise (s : Nat) (hs : 0 < s) :
    ∃ o : BatchingOptions,
      setup_adaptive_batching s none = .ok o ∧
      o.batchSize = max 1
        ((if s < 1024 then 78643200
          else if s < 10240 then 52428800
          else if s < 102400 then 31457280
          else if s < 512000 then 15728640
          else 5242880) / s) ∧
      (o.cursorBatchSize : ℤ) = ⌈(o.batchSize : ℚ) * (12 / 10)⌉ ∧
      (s = 800 → o.batchSize = 98304 ∧ o.cursorBatchSize = 117965) := by
  have h0 : setup_adaptive_batching s none = .ok
      { batchSize := max (calculate_optimal_target_bytes s / s) 1,
        cursorBatchSize :=
          aligned_batch_cursor_size (max (calculate_optimal_target_bytes s / s) 1) } := by
    unfold setup_adaptive_batching
    rw [if_neg (by omega)]
    rfl
  have htb : calculate_optimal_target_bytes s =
      (if s < 1024 then 78643200
        else if s < 10240 then 52428800
        else if s < 102400 then 31457280
        else if s < 512000 then 15728640
        else 5242880) := by
    unfold calculate_optimal_target_bytes to_mb
    norm_num
  refine ⟨_, h0, ?_, aligned_cursor_eq_ceil _, ?_⟩
  · rw [htb, Nat.max_comm]
  · intro hse
    subst hse
    constructor
    · decide
    · decide

/-- C7 witness: the theorem instantiated at average size 800 yields
batch size 98304 and cursor batch size 117965. -/
theorem adaptive_batching_piecewise_witness :
    0 < 800 ∧ setup_adaptive_batching 800 none
        = .ok { batchSize := 98304, cursorBatchSize := 117965 } := by
  refine ⟨by decide, ?_⟩
  obtain ⟨o, h1, _, _, h4⟩ := adaptive_batching_piecewise 800 (by decide)
  obtain ⟨hb, hc⟩ := h4 rfl
  cases o
  simp_all

/-- C10: the adaptive-batching computation is an unguarded integer
division: it panics (division by zero) exactly when the reported
average record size is `0`, and for every positive average it is total
— the outcome type has no error constructor at all, matching the
absence of an error branch in the source. -/
theorem adaptive_batching_div_zero_panic (avg : Nat) (targetBytes : Option Nat) :
    (setup_adaptive_batching avg targetBytes = .panicDivByZero ↔ avg = 0) ∧
    (0 < avg → ∃ o, setup_adaptive_batching avg targetBytes = .ok o) := by
  by_cases h : avg = 0
  · subst h
    refine ⟨by simp [setup_adaptive_batching], ?_⟩
    intro h0
    exact absurd h0 (by omega)
  · constructor
    · simp [setup_adaptive_batching, h]
    · intro _
      have hres : setup_adaptive_batching avg targetBytes = .ok
          { batchSize :=
              max (targetBytes.getD (calculate_optimal_target_bytes avg) / avg) 1
            cursorBatchSize := aligned_batch_cursor_size
              (max (targetBytes.getD (calculate_optimal_target_bytes avg) / avg) 1) } := by
        unfold setup_adaptive_batching
        rw [if_neg h]
      exact ⟨_, hres⟩

/-- C10 witness: a positive average never hits the division panic. -/
theorem adaptive_batching_div_zero_panic_witness :
    0 < 1 ∧ setup_adaptive_batching 1 none ≠ .panicDivByZero :=
  ⟨by decide, fun he =>
    absurd ((adaptive_batching_div_zero_panic 1 none).1.mp he) (by decide)⟩

/-- C2: the concatenation of all record batches a task writes equals
the records it read with the Masker applied exactly once to each when
the strategy is `Mask`, and equals the records unchanged when the
strategy is `Clone`. -/
theorem task_strategy_write_behaviour (T : Type) (maskFn : T → T)
    (cursor : List (Except String T)) :
    (modelTaskWrites .mask maskFn cursor).flatten
        = (cursorRecords cursor).map maskFn ∧
    (modelTaskWrites .clone maskFn cursor).flatten = cursorRecords cursor := by
  constructor
  · exact modelTaskWrites_flatten .mask maskFn cursor
  · rw [modelTaskWrites_flatten .clone maskFn cursor]
    show (cursorRecords cursor).map (fun r => r) = cursorRecords cursor
    exact List.map_id' (cursorRecords cursor)

/-- C3: evaluation of the clearing logic at a collection whose name
ends with `.system.roles`: the source's `clear_database` has no suffix
guard, so the collection is dropped when it is in the allow-list, even
though its name ends in `.system.roles` and is not caught by the prefix
guard. -/
theorem clear_database_drops_dotted_system_collection :
    clearDatabaseDropped ["data.system.roles"] ["data.system.roles"]
        = ["data.system.roles"] ∧
    strEndsWith "data.system.roles" ".system.roles" = true ∧
    shouldSkipSystemCollection "data.system.roles" = false :=
  ⟨by decide, by decide, by decide⟩

/-- C4 counterexample: with both URIs present and a source liveness
probe that fails, `build` does not return an error value of any kind —
it aborts the process through `expect` (modelled as the `panics`
outcome), contradicting the claim that the failure is surfaced as a
returned `ConnectionError`. -/
theorem build_probe_failure_panics_counterexample :
    build builderBothUris probeFailEnv
        = .panics "Failed to list connections for DB" ∧
    isErrOutcome (build builderBothUris probeFailEnv) = false ∧
    build builderBothUris clearFailEnv
        = .panics "Expected to successfully drop target database collections before replication" ∧
    isErrOutcome (build builderBothUris clearFailEnv) = false :=
  ⟨by decide, by decide, by decide, by decide⟩

/-- C4 (amended): a missing source or target URI makes `build` return a
`ConfigError`; once both URIs, client options and database names
resolve, a failed liveness probe on either side panics through `expect`
with the probe's message, and a failure while clearing the target
collections panics with the clearing message — neither is returned as
an error value.  (The error enum has no `ConnectionError` variant;
driver errors use the `Database` variant.) -/
theorem build_error_semantics (b : ReplicationManagerBuilderM) (env : BuildEnv) :
    (b.sourceUri = none → build b env = .err (.ConfigError "No source_uri provided.")) ∧
    (b.sourceUri.isSome = true → b.targetUri = none →
      build b env = .err (.ConfigError "No target_uri provided.")) ∧
    (b.sourceUri.isSome = true → b.targetUri.isSome = true →
      env.sourceClientOptionsError = none → env.targetClientOptionsError = none →
      (env.sourceDbNameInUri.orElse (fun _ => b.sourceDb)).isSome = true →
      (env.targetDbNameInUri.orElse (fun _ => b.targetDb)).isSome = true →
      ((env.sourceListCollectionsOk = false ∨ env.targetListCollectionsOk = false) →
        build b env = .panics "Failed to list connections for DB" ∧
        isErrOutcome (build b env) = false) ∧
      (env.sourceListCollectionsOk = true → env.targetListCollectionsOk = true →
        env.clearTargetOk = false →
        build b env
          = .panics "Expected to successfully drop target database collections before replication" ∧
        isErrOutcome (build b env) = false) ∧
      (env.sourceListCollectionsOk = true → env.targetListCollectionsOk = true →
        env.clearTargetOk = true →
        build b env = .ok { channelCapacity := b.config.threadCount, config := b.config })) := by
  refine ⟨?_, ?_, ?_⟩
  · intro h
    simp [build, h]
  · intro hs ht
    obtain ⟨su, hsu⟩ := Option.isSome_iff_exists.mp hs
    simp [build, hsu, ht]
  · intro hs ht hsc htc hsdb htdb
    obtain ⟨su, hsu⟩ := Option.isSome_iff_exists.mp hs
    obtain ⟨tu, htu⟩ := Option.isSome_iff_exists.mp ht
    obtain ⟨sd, hsd⟩ := Option.isSome_iff_exists.mp hsdb
    obtain ⟨td, htd⟩ := Option.isSome_iff_exists.mp htdb
    refine ⟨?_, ?_, ?_⟩
    · intro hpf
      rcases hpf with hpf | hpf
      · simp [build, hsu, htu, hsc, htc, hsd, htd, hpf, isErrOutcome]
      · cases hso : env.sourceListCollectionsOk
        · simp [build, hsu, htu, hsc, htc, hsd, htd, hso, isErrOutcome]
        · simp [build, hsu, htu, hsc, htc, hsd, htd, hso, hpf, isErrOutcome]
    · intro h1 h2 h3
      simp [build, hsu, htu, hsc, htc, hsd, htd, h1, h2, h3, isErrOutcome]
    · intro h1 h2 h3
      simp [build, hsu, htu, hsc, htc, hsd, htd, h1, h2, h3]

/-- C4 witness: the amended semantics instantiated on concrete builders
and environments. -/
theorem build_error_semantics_witness :
    build (builderNew 2) allOkEnv = .err (.ConfigError "No source_uri provided.") ∧
    build (setSourceUri (builderNew 2) "mongodb://source:27017/app") allOkEnv
        = .err (.ConfigError "No target_uri provided.") ∧
    (build builderBothUris probeFailEnv
        = .panics "Failed to list connections for DB" ∧
      isErrOutcome (build builderBothUris probeFailEnv) = false) ∧
    build builderBothUris allOkEnv
        = .ok { channelCapacity := builderBothUris.config.threadCount,
                config := builderBothUris.config } :=
  ⟨(build_error_semantics (builderNew 2) allOkEnv).1 rfl,
    (build_error_semantics (setSourceUri (builderNew 2) "mongodb://source:27017/app")
        allOkEnv).2.1 rfl rfl,
    ((build_error_semantics builderBothUris probeFailEnv).2.2 rfl rfl rfl rfl rfl rfl).1
      (Or.inl rfl),
    ((build_error_semantics builderBothUris allOkEnv).2.2 rfl rfl rfl rfl rfl rfl).2.2
      rfl rfl rfl⟩

/-- C5 counterexample: on a 2-CPU host with the builder's
`thread_count` set to 1, the dispatch channel is created with capacity
2 (`config.thread_count`, which the setter does not touch), which is
neither `1 × 4` nor `2 × 4`. -/
theorem channel_capacity_not_four_times_counterexample :
    builtChannelCapacity (build (setThreadCount builderBothUris 1) allOkEnv) = some 2 ∧
    (2 : Nat) ≠ 1 * 4 ∧ (2 : Nat) ≠ 2 * 4 :=
  ⟨by decide, by decide, by decide⟩

/-- C5 (amended): whenever `build` succeeds, the bounded dispatch
channel is created with capacity exactly `config.thread_count` (not
`thread_count × 4`); the builder's `thread_count` setter stores into a
separate field and leaves `config.thread_count` unchanged. -/
theorem channel_capacity_equals_config_thread_count
    (b : ReplicationManagerBuilderM) (env : BuildEnv) (m : ManagerModel)
    (h : build b env = .ok m) :
    m.channelCapacity = b.config.threadCount := by
  unfold build at h
  repeat' split at h
  all_goals cases h
  all_goals rfl

/-- C5 witness: the amended capacity equation at the concrete build of
the counterexample. -/
theorem channel_capacity_equals_config_thread_count_witness :
    ({ channelCapacity := 2, config := defaultReplicationConfig 2 } : ManagerModel).channelCapacity
      = (setThreadCount builderBothUris 1).config.threadCount :=
  channel_capacity_equals_config_thread_count (setThreadCount builderBothUris 1) allOkEnv
    { channelCapacity := 2, config := defaultReplicationConfig 2 } (by decide)

theorem generate_name_data (c : String) (fields : List IndexField) :
    ∃ rest : List Char,
      (generate_default_index_name c fields).data
        = 'i' :: 'd' :: 'x' :: '_' :: rest := by
  refine ⟨(c ++ "_" ++ String.intercalate "_"
      (fields.map (fun f => f.name ++ "_" ++ dirString f.direction))).data, ?_⟩
  unfold generate_default_index_name
  simp only [String.data_append, List.append_assoc]
  simp

/-- C9 counterexample: the `IndexModel → IndexConfig` translation gives
a native index that carries no name the constant name
`"unnamed_index"`, which does not start with `idx_` — not the generated
`idx_<entity>_<field>_<dir>` name the claim requires of every
translation. -/
theorem unnamed_index_fallback_counterexample :
    (indexModelToConfig mUnnamed).name = "unnamed_index" ∧
    strStartsWith (indexModelToConfig mUnnamed).name "idx_" = false ∧
    (convertSourceIndex "users" mUnnamed).name = "idx_users_email_asc" :=
  ⟨by decide, by decide, by decide⟩

/-- C9 (amended): an index listed through `MongodbSource::list_indexes`
whose native form carries no name gets the generated, non-empty name
`idx_<entity>_<field1>_<dir1>_…` (starting with `idx_`); the standalone
`IndexModel → IndexConfig` conversion instead falls back to the
constant `"unnamed_index"`. -/
theorem source_index_default_name (entityName : String) (m : IndexModelM)
    (hname : m.options.bind IndexOptionsM.name = none) :
    (convertSourceIndex entityName m).name
        = generate_default_index_name entityName
            ((convertSourceIndex entityName m).fields) ∧
    (∃ rest : List Char,
      (convertSourceIndex entityName m).name.data
        = 'i' :: 'd' :: 'x' :: '_' :: rest) ∧
    (convertSourceIndex entityName m).name ≠ "" ∧
    (∀ models : List IndexModelM, m ∈ models → m.keys.lookup "_id" = none →
      convertSourceIndex entityName m ∈ (list_indexes entityName models).indexes) := by
  have hn : (convertSourceIndex entityName m).name
      = generate_default_index_name entityName
          ((convertSourceIndex entityName m).fields) := by
    simp [convertSourceIndex, hname]
  refine ⟨hn, ?_, ?_, ?_⟩
  · rw [hn]
    exact generate_name_data entityName _
  · obtain ⟨rest, hd⟩ :=
      generate_name_data entityName ((convertSourceIndex entityName m).fields)
    rw [← hn] at hd
    intro h
    rw [h] at hd
    simp at hd
  · intro models hm hid
    unfold list_indexes
    exact List.mem_map_of_mem _
      (List.mem_filter.mpr ⟨hm, by simp [hid]⟩)

/-- C9 witness: the generated-name property at a concrete unnamed index
on collection `users`. -/
theorem source_index_default_name_witness :
    (convertSourceIndex "users" mUnnamed).name
        = generate_default_index_name "users"
            ((convertSourceIndex "users" mUnnamed).fields) ∧
    (convertSourceIndex "users" mUnnamed).name ≠ "" :=
  ⟨(source_index_default_name "users" mUnnamed (by decide)).1,
    (source_index_default_name "users" mUnnamed (by decide)).2.2.1⟩

theorem list_map_id_of_mem {α : Type} (f : α → α) (l : List α)
    (h : ∀ a ∈ l, f a = a) : l.map f = l := by
  induction l with
  | nil => rfl
  | cons a t ih =>
    rw [List.map_cons, h a (List.mem_cons_self _ _),
      ih (fun x hx => h x (List.mem_cons_of_mem _ hx))]

theorem foldl_assocInsert_fresh (g : IndexField → BsonValue)
    (fields : List IndexField) :
    ∀ acc : List (String × BsonValue),
      (∀ fl ∈ fields, ∀ p ∈ acc, p.1 ≠ fl.name) →
      (fields.map IndexField.name).Nodup →
      fields.foldl (fun d fl => assocInsert d fl.name (g fl)) acc
        = acc ++ fields.map (fun fl => (fl.name, g fl)) := by
  induction fields with
  | nil => intro acc _ _; simp
  | cons fl rest ih =>
    intro acc hfresh hnodup
    rw [List.map_cons] at hnodup
    obtain ⟨hnotin, hnd⟩ := List.nodup_cons.mp hnodup
    rw [List.map_cons, List.foldl_cons]
    have hany : acc.any (fun p => p.1 == fl.name) = false := by
      rw [List.any_eq_false]
      intro p hp
      simp only [beq_iff_eq]
      exact hfresh fl (List.mem_cons_self _ _) p hp
    have hstep : assocInsert acc fl.name (g fl) = acc ++ [(fl.name, g fl)] := by
      unfold assocInsert
      rw [hany]
      simp
    have hfresh2 : ∀ fl2 ∈ rest, ∀ p ∈ acc ++ [(fl.name, g fl)], p.1 ≠ fl2.name := by
      intro fl2 hfl2 p hp
      rcases List.mem_append.mp hp with hp | hp
      · exact hfresh fl2 (List.mem_cons_of_mem _ hfl2) p hp
      · have hp1 : p = (fl.name, g fl) := List.mem_singleton.mp hp
        subst hp1
        intro hcontra
        have hmem2 := List.mem_map_of_mem IndexField.name hfl2
        rw [← hcontra] at hmem2
        exact hnotin hmem2
    rw [hstep, ih (acc ++ [(fl.name, g fl)]) hfresh2 hnd]
    simp

theorem foldl_assocInsert_overwrite (v : BsonValue) (g : IndexField → BsonValue)
    (fields : List IndexField) :
    ∀ pre : List (String × BsonValue),
      (∀ fl ∈ fields, ∀ p ∈ pre, p.1 ≠ fl.name) →
      (fields.map IndexField.name).Nodup →
      fields.foldl (fun d fl => assocInsert d fl.name v)
          (pre ++ fields.map (fun fl => (fl.name, g fl)))
        = pre ++ fields.map (fun fl => (fl.name, v)) := by
  induction fields with
  | nil => intro pre _ _; simp
  | cons fl rest ih =>
    intro pre hfresh hnodup
    rw [List.map_cons] at hnodup
    obtain ⟨hnotin, hnd⟩ := List.nodup_cons.mp hnodup
    rw [List.map_cons, List.map_cons, List.foldl_cons]
    have hmem : (pre ++ (fl.name, g fl)
          :: rest.map (fun fl2 => (fl2.name, g fl2))).any
        (fun p => p.1 == fl.name) = true := by
      rw [List.any_eq_true]
      exact ⟨(fl.name, g fl), by simp, by simp⟩
    have hpre : ∀ p ∈ pre,
        (if p.1 == fl.name then (fl.name, v) else p) = p := by
      intro p hp
      rw [if_neg]
      intro hc
      exact hfresh fl (List.mem_cons_self _ _) p hp (by simpa using hc)
    have hrest : ∀ q ∈ rest.map (fun fl2 => (fl2.name, g fl2)),
        (if q.1 == fl.name then (fl.name, v) else q) = q := by
      intro q hq
      obtain ⟨fl2, hfl2, rfl⟩ := List.mem_map.mp hq
      rw [if_neg]
      intro hc
      have he : fl2.name = fl.name := by simpa using hc
      have hmem2 := List.mem_map_of_mem IndexField.name hfl2
      rw [he] at hmem2
      exact hnotin hmem2
    have hstep : assocInsert
          (pre ++ (fl.name, g fl) :: rest.map (fun fl2 => (fl2.name, g fl2)))
          fl.name v
        = (pre ++ [(fl.name, v)]) ++ rest.map (fun fl2 => (fl2.name, g fl2)) := by
      unfold assocInsert
      rw [hmem]
      simp only [if_true]
      rw [List.map_append, List.map_cons,
        list_map_id_of_mem _ pre hpre, list_map_id_of_mem _ _ hrest]
      simp
    have hfresh2 : ∀ fl2 ∈ rest, ∀ p ∈ pre ++ [(fl.name, v)], p.1 ≠ fl2.name := by
      intro fl2 hfl2 p hp
      rcases List.mem_append.mp hp with hp | hp
      · exact hfresh fl2 (List.mem_cons_of_mem _ hfl2) p hp
      · have hp1 : p = (fl.name, v) := List.mem_singleton.mp hp
        subst hp1
        intro hcontra
        have hmem2 := List.mem_map_of_mem IndexField.name hfl2
        rw [← hcontra] at hmem2
        exact hnotin hmem2
    rw [hstep, ih (pre ++ [(fl.name, v)]) hfresh2 hnd]
    simp

theorem asStr_bsonOfDirection (d : IndexDirection) :
    (bsonOfDirection d).asStr = none := by
  cases d <;> rfl

theorem any_keys_dir_asStr (fields : List IndexField) (s : String) :
    (fields.map (fun f => (f.name, bsonOfDirection f.direction))).any
      (fun p => p.2.asStr == some s) = false := by
  rw [List.any_eq_false]
  intro p hp
  obtain ⟨f, _, rfl⟩ := List.mem_map.mp hp
  simp [asStr_bsonOfDirection]

theorem any_keys_str_self (fields : List IndexField) (t : String)
    (hne : fields ≠ []) :
    (fields.map (fun f => (f.name, BsonValue.str t))).any
      (fun p => p.2.asStr == some t) = true := by
  cases fields with
  | nil => exact absurd rfl hne
  | cons f rest => simp [BsonValue.asStr]

theorem any_keys_str_ne (fields : List IndexField) (t s : String)
    (h : t ≠ s) :
    (fields.map (fun f => (f.name, BsonValue.str t))).any
      (fun p => p.2.asStr == some s) = false := by
  rw [List.any_eq_false]
  intro p hp
  obtain ⟨f, _, rfl⟩ := List.mem_map.mp hp
  simp [BsonValue.asStr]
  exact h

theorem fields_roundtrip_dir (fields : List IndexField) :
    (fields.map (fun f => (f.name, bsonOfDirection f.direction))).map
      (fun p => (⟨p.1, directionOfBson p.2⟩ : IndexField)) = fields := by
  induction fields with
  | nil => rfl
  | cons f rest ih =>
    rw [List.map_cons, List.map_cons, ih]
    cases f with
    | mk n d => cases d <;> rfl

theorem fields_sentinel_dir (fields : List IndexField) (t : String)
    (hdir : ∀ f ∈ fields, f.direction = .Ascending) :
    (fields.map (fun f => (f.name, BsonValue.str t))).map
      (fun p => (⟨p.1, directionOfBson p.2⟩ : IndexField)) = fields := by
  induction fields with
  | nil => rfl
  | cons f rest ih =>
    rw [List.map_cons, List.map_cons,
      ih (fun x hx => hdir x (List.mem_cons_of_mem _ hx))]
    have hd := hdir f (List.mem_cons_self _ _)
    cases f with
    | mk n d =>
      simp only at hd
      subst hd
      rfl

/-- C8 counterexample: the round-trip is not the identity on every
supported `IndexConfig`.  A `Compound` config comes back as `Standard`
(the emit side has no `Compound` case and the detect side defaults to
`Standard`), and a `Text` config with a descending field comes back
ascending (the sentinel string destroys the direction) — neither
difference is an option key. -/
theorem index_roundtrip_counterexample :
    indexModelToConfig (configToIndexModel cCompound) ≠ cCompound ∧
    (indexModelToConfig (configToIndexModel cCompound)).index_type = .Standard ∧
    cCompound.index_type = .Compound ∧
    indexModelToConfig (configToIndexModel cTextDesc) ≠ cTextDesc ∧
    (indexModelToConfig (configToIndexModel cTextDesc)).fields
        = [⟨"d", .Ascending⟩] ∧
    cTextDesc.fields = [⟨"d", .Descending⟩] :=
  ⟨by decide, by decide, by decide, by decide, by decide, by decide⟩

/-- C8 (amended): converting an `IndexConfig` to the native index model
and back is the identity for every config whose kind is not `Compound`
or `Partial`, whose non-empty fields have pairwise-distinct names, with
any mix of ascending/descending directions for `Standard` and `Unique`
and all-ascending directions for the sentinel kinds (`Text`,
`Geo2DSphere`, `Geo2D`, `Hashed`), and whose options map consists of
exactly the natively representable keys for its kind (`unique: true`
for `Unique`; the text language strings for `Text`; an optional
`sparse` flag). -/
theorem index_config_roundtrip (c : IndexConfig) (sp : Option Bool)
    (dl lo : Option String)
    (hne : c.fields ≠ [])
    (hnodup : (c.fields.map IndexField.name).Nodup)
    (hkc : c.index_type ≠ .Compound) (hkp : c.index_type ≠ .Partial)
    (hdir : sentinelKind c.index_type = true →
      ∀ f ∈ c.fields, f.direction = .Ascending)
    (hopts : c.options = canonicalOptions c.index_type sp dl lo) :
    indexModelToConfig (configToIndexModel c) = c := by
  obtain ⟨nm, fields, t, opts⟩ := c
  dsimp only at hne hnodup hkc hkp hdir hopts
  subst hopts
  have hfold : fields.foldl
      (fun d f => assocInsert d f.name (bsonOfDirection f.direction)) []
      = fields.map (fun f => (f.name, bsonOfDirection f.direction)) := by
    have h := foldl_assocInsert_fresh (fun f => bsonOfDirection f.direction)
      fields [] (by intro fl _ p hp; simp at hp) hnodup
    simpa using h
  cases t with
  | Compound => exact absurd rfl hkc
  | Partial => exact absurd rfl hkp
  | Standard =>
    rcases sp with _ | b
    all_goals
      simp only [configToIndexModel]
      rw [hfold]
      simp [indexModelToConfig, canonicalOptions, assocInsert, List.lookup,
        JsonValue.asBool, JsonValue.asStr, any_keys_dir_asStr,
        fields_roundtrip_dir, -List.map_map]
  | Unique =>
    rcases sp with _ | b
    all_goals
      simp only [configToIndexModel]
      rw [hfold]
      simp [indexModelToConfig, canonicalOptions, assocInsert, List.lookup,
        JsonValue.asBool, JsonValue.asStr, any_keys_dir_asStr,
        fields_roundtrip_dir, -List.map_map]
  | Text =>
    have hdirT := hdir rfl
    have hov : fields.foldl
        (fun d f => assocInsert d f.name (BsonValue.str "text"))
        (fields.map (fun f => (f.name, bsonOfDirection f.direction)))
        = fields.map (fun f => (f.name, BsonValue.str "text")) := by
      have h := foldl_assocInsert_overwrite (BsonValue.str "text")
        (fun f => bsonOfDirection f.direction) fields []
        (by intro fl _ p hp; simp at hp) hnodup
      simpa using h
    have hany1 := any_keys_str_self fields "text" hne
    have hany2 := any_keys_str_ne fields "text" "2dsphere" (by decide)
    have hany3 := any_keys_str_ne fields "text" "2d" (by decide)
    have hany4 := any_keys_str_ne fields "text" "hashed" (by decide)
    have hfieldsT := fields_sentinel_dir fields "text" hdirT
    rcases sp with _ | b <;> rcases dl with _ | l1 <;> rcases lo with _ | l2
    all_goals
      simp only [configToIndexModel, canonicalOptions]
      rw [hfold, hov]
      simp [indexModelToConfig, assocInsert, List.lookup,
        JsonValue.asBool, JsonValue.asStr, hany1, hany2, hany3, hany4,
        hfieldsT, -List.map_map]
  | Geo2DSphere =>
    have hdirG := hdir rfl
    have hov : fields.foldl
        (fun d f => assocInsert d f.name (BsonValue.str "2dsphere"))
        (fields.map (fun f => (f.name, bsonOfDirection f.direction)))
        = fields.map (fun f => (f.name, BsonValue.str "2dsphere")) := by
      have h := foldl_assocInsert_overwrite (BsonValue.str "2dsphere")
        (fun f => bsonOfDirection f.direction) fields []
        (by intro fl _ p hp; simp at hp) hnodup
      simpa using h
    have hany1 := any_keys_str_ne fields "2dsphere" "text" (by decide)
    have hany2 := any_keys_str_self fields "2dsphere" hne
    have hany3 := any_keys_str_ne fields "2dsphere" "2d" (by decide)
    have hany4 := any_keys_str_ne fields "2dsphere" "hashed" (by decide)
    have hfieldsG := fields_sentinel_dir fields "2dsphere" hdirG
    rcases sp with _ | b
    all_goals
      simp only [configToIndexModel, canonicalOptions]
      rw [hfold, hov]
      simp [indexModelToConfig, assocInsert, List.lookup,
        JsonValue.asBool, JsonValue.asStr, hany1, hany2, hany3, hany4,
        hfieldsG, -List.map_map]
  | Geo2D =>
    have hdirG := hdir rfl
    have hov : fields.foldl
        (fun d f => assocInsert d f.name (BsonValue.str "2d"))
        (fields.map (fun f => (f.name, bsonOfDirection f.direction)))
        = fields.map (fun f => (f.name, BsonValue.str "2d")) := by
      have h := foldl_assocInsert_overwrite (BsonValue.str "2d")
        (fun f => bsonOfDirection f.direction) fields []
        (by intro fl _ p hp; simp at hp) hnodup
      simpa using h
    have hany1 := any_keys_str_ne fields "2d" "text" (by decide)
    have hany2 := any_keys_str_ne fields "2d" "2dsphere" (by decide)
    have hany3 := any_keys_str_self fields "2d" hne
    have hany4 := any_keys_str_ne fields "2d" "hashed" (by decide)
    have hfieldsG := fields_sentinel_dir fields "2d" hdirG
    rcases sp with _ | b
    all_goals
      simp only [configToIndexModel, canonicalOptions]
      rw [hfold, hov]
      simp [indexModelToConfig, assocInsert, List.lookup,
        JsonValue.asBool, JsonValue.asStr, hany1, hany2, hany3, hany4,
        hfieldsG, -List.map_map]
  | Hashed =>
    have hdirH := hdir rfl
    have hov : fields.foldl
        (fun d f => assocInsert d f.name (BsonValue.str "hashed"))
        (fields.map (fun f => (f.name, bsonOfDirection f.direction)))
        = fields.map (fun f => (f.name, BsonValue.str "hashed")) := by
      have h := foldl_assocInsert_overwrite (BsonValue.str "hashed")
        (fun f => bsonOfDirection f.direction) fields []
        (by intro fl _ p hp; simp at hp) hnodup
      simpa using h
    have hany1 := any_keys_str_ne fields "hashed" "text" (by decide)
    have hany2 := any_keys_str_ne fields "hashed" "2dsphere" (by decide)
    have hany3 := any_keys_str_ne fields "hashed" "2d" (by decide)
    have hany4 := any_keys_str_self fields "hashed" hne
    have hfieldsH := fields_sentinel_dir fields "hashed" hdirH
    rcases sp with _ | b
    all_goals
      simp only [configToIndexModel, canonicalOptions]
      rw [hfold, hov]
      simp [indexModelToConfig, assocInsert, List.lookup,
        JsonValue.asBool, JsonValue.asStr, hany1, hany2, hany3, hany4,
        hfieldsH, -List.map_map]

/-- C8 witness: the round-trip identity at a concrete unique index with
mixed directions and canonical options. -/
theorem index_config_roundtrip_witness :
    indexModelToConfig (configToIndexModel cUniqueRT) = cUniqueRT :=
  index_config_roundtrip cUniqueRT (some false) none none (by decide)
    (by decide) (by decide) (by decide) (by decide) (by decide)

end Tuxedo
